import Mathlib

/-!
# Verification of the InvoiceBot pipeline (src/main.rs)

A shallow embedding of the decision logic of `src/main.rs`: the OAuth
credential lifecycle (`first_access`, `refresh`, `save_access`), the
document lookup (`get_files`) and export (`file_export`), the
orchestrator's lookup retry loop in `main`, the local persistence
setup, the email composition in `send_email`, and the confirmation
gate.  Remote HTTP exchanges are modelled by passing the (already
transported and, where the source parses them, already decoded)
responses as explicit arguments; file-system state is modelled as the
list of existing directories; machine bytes are `Nat` values with an
explicit `< 256` bound where it matters.
-/

set_option maxRecDepth 8192

namespace InvoiceBot

/-- Error taxonomy of the run (spec §7).  `ioError` stands for a local
file-system error surfaced by the delegated byte sink. -/
inductive RunError where
  | notFound
  | remoteError
  | scopeMismatch
  | decodeError
  | transportError
  | ioError
deriving DecidableEq, Repr

/-- Outcome of a call that can also abort abnormally: Rust code that
indexes out of bounds does not return at all, which we model as the
distinguished `panicked` outcome. -/
inductive Outcome (α : Type) where
  | ok (val : α)
  | err (e : RunError)
  | panicked
deriving DecidableEq, Repr

/-- Oauth2 token information (struct `Access`, src/main.rs:57-74).
`refresh_token` carries serde's `#[serde(default)]`, see
`parse_access`. -/
structure Access where
  access_token : String
  expires_in : Nat
  refresh_token : String
  scope : String
  token_type : String
deriving DecidableEq, Repr

/-- A token-endpoint response body as transmitted: the
`refresh_token` field may be absent (`none`), which is how Google's
refresh responses typically arrive (src/main.rs:65-66). -/
structure TokenResponse where
  access_token : String
  expires_in : Nat
  refresh_token : Option String
  scope : String
  token_type : String
deriving DecidableEq, Repr

/-- Serde deserialization of a token response into `Access`: the
`#[serde(default)]` attribute on `refresh_token` (src/main.rs:66)
fills an absent field with `String::default()`, the empty string. -/
def parse_access (r : TokenResponse) : Access :=
  { access_token := r.access_token
    expires_in := r.expires_in
    refresh_token := r.refresh_token.getD ("")
    scope := r.scope
    token_type := r.token_type }

/-- The credential store (the `tokens.json` file): `none` when no
record has ever been persisted. -/
abbrev CredStore := Option Access

/-- `save_access` (src/main.rs:133-140): durably persists the record
and returns the same value for chaining. -/
def save_access (access : Access) (_store : CredStore) : Access × CredStore :=
  (access, some access)

/-- Scopes our tokens need (`DRIVE_SCOPES`, src/main.rs:50-53). -/
def DRIVE_SCOPES : List String :=
  ["https://www.googleapis.com/auth/drive",
   "https://www.googleapis.com/auth/gmail.send"]

/-- Generic split of a list on a separator element, keeping empty
pieces; `split_on_sep sep l` has one group per gap between separator
occurrences, exactly like Rust's `str::split` on a one-`char`
pattern. -/
def split_on_sep {α : Type} [DecidableEq α] (sep : α) : List α → List (List α)
  | [] => [[]]
  | x :: xs =>
    if x = sep then [] :: split_on_sep sep xs
    else
      match split_on_sep sep xs with
      | [] => [[x]]
      | g :: gs => (x :: g) :: gs

/-- `text.scope.split(' ').count()` (src/main.rs:182). -/
def scope_count (s : String) : Nat :=
  (split_on_sep ' ' s.data).length

/-- Tail of `first_access` after the token response has been decoded
(src/main.rs:181-185): validate the granted scope count, and only on
success persist the credential via `save_access`. -/
def first_access_validate (text : Access) (store : CredStore) :
    Except RunError Access × CredStore :=
  if scope_count text.scope ≠ DRIVE_SCOPES.length then
    (Except.error RunError.scopeMismatch, store)
  else
    let (a, st) := save_access text store
    (Except.ok a, st)

/-- Tail of `refresh` after the token response has been decoded
(src/main.rs:207-215): the persisted credential is the response with
`refresh_token` replaced by the previously stored one. -/
def refresh_persist (access : Access) (text : Access) (store : CredStore) :
    Access × CredStore :=
  save_access { text with refresh_token := access.refresh_token } store

/-- Google Drive File Resource (struct `FileResource`,
src/main.rs:79-94). -/
structure FileResource where
  id : String
  name : String
  mime_type : String
  parents : List String
  web_view_link : String
deriving DecidableEq, Repr

/-- Returned from `Files::list` (struct `ListResponse`,
src/main.rs:99-101). -/
structure ListResponse where
  files : List FileResource
deriving DecidableEq, Repr

/-- Result-extraction step of `get_files` (src/main.rs:252-254), after
both list responses have passed `error_for_status` and decoded: the
source runs `files.swap_remove(0)` on each list (template first),
which returns element 0 — and panics with an index-out-of-bounds when
the list is empty. -/
def get_files (template folder : ListResponse) :
    Outcome (FileResource × FileResource) :=
  match template.files, folder.files with
  | t :: _, f :: _ => Outcome.ok (t, f)
  | _, _ => Outcome.panicked

/-- A raw HTTP response: status code and body bytes. -/
structure HttpResponse where
  status : Nat
  body : List Nat
deriving DecidableEq, Repr

/-- `file_export` (src/main.rs:284-296): a transport failure from
`send()` propagates via `?`; otherwise the body bytes are returned
with `res.bytes()` — the source contains no `error_for_status` call
on this response. -/
def file_export (send_result : Except RunError HttpResponse) :
    Except RunError (List Nat) :=
  match send_result with
  | Except.error e => Except.error e
  | Except.ok res => Except.ok res.body

/-- The lookup retry loop of `main` (src/main.rs:410-417), with an
explicit fuel bound so the unbounded `loop` is a total function:
`none` means the loop is still running after `fuel` iterations.  Each
iteration calls `get_files`; on success it breaks with the pair, on
any failure it calls `refresh`, whose own failure propagates out of
`main` through `?`. -/
def main_lookup_loop
    (get_files_step : Access → Except RunError (FileResource × FileResource))
    (refresh_step : Access → Except RunError Access) :
    Nat → Access → Option (Except RunError (FileResource × FileResource))
  | 0, _ => none
  | Nat.succ fuel, access =>
    match get_files_step access with
    | Except.ok f => some (Except.ok f)
    | Except.error _ =>
      match refresh_step access with
      | Except.ok a2 => main_lookup_loop get_files_step refresh_step fuel a2
      | Except.error e => some (Except.error e)

/-! ## Base64 (the `base64::encode` call in `send_email`)

`base64::encode` uses the standard alphabet with `=` padding and no
line wrapping.  Bytes are `Nat` values; every byte of a Rust `u8`
slice is `< 256`, carried as an explicit hypothesis where needed. -/

/-- The standard base64 alphabet, as a function from a 6-bit index. -/
def b64_char (n : Nat) : Char :=
  if n < 26 then Char.ofNat (65 + n)
  else if n < 52 then Char.ofNat (71 + n)
  else if n < 62 then Char.ofNat (n - 4)
  else if n = 62 then '+' else '/'

/-- Inverse of the standard base64 alphabet. -/
def char_idx (c : Char) : Option Nat :=
  if 65 ≤ c.toNat ∧ c.toNat ≤ 90 then some (c.toNat - 65)
  else if 97 ≤ c.toNat ∧ c.toNat ≤ 122 then some (c.toNat - 71)
  else if 48 ≤ c.toNat ∧ c.toNat ≤ 57 then some (c.toNat + 4)
  else if c = '+' then some 62
  else if c = '/' then some 63
  else none

/-- Base64 encoding of a byte sequence, three bytes to four
characters, with `=` padding on a final short chunk. -/
def b64_encode_chars : List Nat → List Char
  | [] => []
  | [b0] => [b64_char (b0 / 4), b64_char (b0 % 4 * 16), '=', '=']
  | [b0, b1] =>
    [b64_char (b0 / 4), b64_char (b0 % 4 * 16 + b1 / 16),
     b64_char (b1 % 16 * 4), '=']
  | b0 :: b1 :: b2 :: rest =>
    b64_char (b0 / 4) :: b64_char (b0 % 4 * 16 + b1 / 16) ::
      b64_char (b1 % 16 * 4 + b2 / 64) :: b64_char (b2 % 64) ::
      b64_encode_chars rest

/-- `base64::encode` (src/main.rs:380). -/
def base64_encode (p : List Nat) : String := ⟨b64_encode_chars p⟩

/-- Base64 decoding: four characters back to three bytes, with `=`
padding accepted only on the final chunk. -/
def b64_decode_chars : List Char → Option (List Nat)
  | [] => some []
  | c0 :: c1 :: c2 :: c3 :: rest =>
    match char_idx c0, char_idx c1 with
    | some n0, some n1 =>
      if c2 = '=' then
        if c3 = '=' ∧ rest = [] then some [n0 * 4 + n1 / 16] else none
      else
        match char_idx c2 with
        | some n2 =>
          if c3 = '=' then
            if rest = [] then some [n0 * 4 + n1 / 16, n1 % 16 * 16 + n2 / 4]
            else none
          else
            match char_idx c3 with
            | some n3 =>
              match b64_decode_chars rest with
              | some bs =>
                some ((n0 * 4 + n1 / 16) :: (n1 % 16 * 16 + n2 / 4) ::
                  (n2 % 4 * 64 + n3) :: bs)
              | none => none
            | none => none
        | none => none
    | _, _ => none
  | _ => none

/-- The alphabet inverse undoes the alphabet on 6-bit indices. -/
theorem char_idx_b64_char : ∀ n, n < 64 → char_idx (b64_char n) = some n := by
  decide

/-- Alphabet characters are never padding, dashes, underscores or
line terminators. -/
theorem b64_char_safe : ∀ n, n < 64 →
    b64_char n ≠ '=' ∧ b64_char n ≠ '-' ∧ b64_char n ≠ '\r' ∧
      b64_char n ≠ '\n' ∧ b64_char n ≠ '_' := by
  decide

/-- Decoding undoes encoding on byte sequences. -/
theorem b64_decode_encode : ∀ (p : List Nat), (∀ b ∈ p, b < 256) →
    b64_decode_chars (b64_encode_chars p) = some p
  | [], _ => rfl
  | [b0], h => by
    have hb0 : b0 < 256 := h b0 (by simp)
    have h0 : char_idx (b64_char (b0 / 4)) = some (b0 / 4) :=
      char_idx_b64_char _ (by omega)
    have h1 : char_idx (b64_char (b0 % 4 * 16)) = some (b0 % 4 * 16) :=
      char_idx_b64_char _ (by omega)
    simp [b64_encode_chars, b64_decode_chars, h0, h1]
    omega
  | [b0, b1], h => by
    have hb0 : b0 < 256 := h b0 (by simp)
    have hb1 : b1 < 256 := h b1 (by simp)
    have h0 : char_idx (b64_char (b0 / 4)) = some (b0 / 4) :=
      char_idx_b64_char _ (by omega)
    have h1 : char_idx (b64_char (b0 % 4 * 16 + b1 / 16)) =
        some (b0 % 4 * 16 + b1 / 16) := char_idx_b64_char _ (by omega)
    have h2 : char_idx (b64_char (b1 % 16 * 4)) = some (b1 % 16 * 4) :=
      char_idx_b64_char _ (by omega)
    have hne : b64_char (b1 % 16 * 4) ≠ '=' :=
      (b64_char_safe _ (by omega)).1
    simp [b64_encode_chars, b64_decode_chars, h0, h1, h2, hne]
    omega
  | b0 :: b1 :: b2 :: rest, h => by
    have hb0 : b0 < 256 := h b0 (by simp)
    have hb1 : b1 < 256 := h b1 (by simp)
    have hb2 : b2 < 256 := h b2 (by simp)
    have hrec : b64_decode_chars (b64_encode_chars rest) = some rest :=
      b64_decode_encode rest (fun b hb => h b (by simp [hb]))
    have h0 : char_idx (b64_char (b0 / 4)) = some (b0 / 4) :=
      char_idx_b64_char _ (by omega)
    have h1 : char_idx (b64_char (b0 % 4 * 16 + b1 / 16)) =
        some (b0 % 4 * 16 + b1 / 16) := char_idx_b64_char _ (by omega)
    have h2 : char_idx (b64_char (b1 % 16 * 4 + b2 / 64)) =
        some (b1 % 16 * 4 + b2 / 64) := char_idx_b64_char _ (by omega)
    have h3 : char_idx (b64_char (b2 % 64)) = some (b2 % 64) :=
      char_idx_b64_char _ (by omega)
    have hne2 : b64_char (b1 % 16 * 4 + b2 / 64) ≠ '=' :=
      (b64_char_safe _ (by omega)).1
    have hne3 : b64_char (b2 % 64) ≠ '=' :=
      (b64_char_safe _ (by omega)).1
    simp [b64_encode_chars, b64_decode_chars, h0, h1, h2, h3, hne2, hne3,
      hrec]
    omega

/-- Every character the encoder emits is an alphabet character or
`=`; in particular never a dash, an underscore or a line
terminator. -/
theorem b64_encode_chars_safe : ∀ (p : List Nat), (∀ b ∈ p, b < 256) →
    ∀ c ∈ b64_encode_chars p,
      c ≠ '-' ∧ c ≠ '\r' ∧ c ≠ '\n' ∧ c ≠ '_'
  | [], _ => by simp [b64_encode_chars]
  | [b0], h => by
    have hb0 : b0 < 256 := h b0 (by simp)
    have s0 := b64_char_safe (b0 / 4) (by omega)
    have s1 := b64_char_safe (b0 % 4 * 16) (by omega)
    intro c hc
    simp only [b64_encode_chars, List.mem_cons, List.not_mem_nil,
      or_false] at hc
    rcases hc with rfl | rfl | rfl | rfl
    · exact ⟨s0.2.1, s0.2.2.1, s0.2.2.2.1, s0.2.2.2.2⟩
    · exact ⟨s1.2.1, s1.2.2.1, s1.2.2.2.1, s1.2.2.2.2⟩
    · refine ⟨?_, ?_, ?_, ?_⟩ <;> decide
    · refine ⟨?_, ?_, ?_, ?_⟩ <;> decide
  | [b0, b1], h => by
    have hb0 : b0 < 256 := h b0 (by simp)
    have hb1 : b1 < 256 := h b1 (by simp)
    have s0 := b64_char_safe (b0 / 4) (by omega)
    have s1 := b64_char_safe (b0 % 4 * 16 + b1 / 16) (by omega)
    have s2 := b64_char_safe (b1 % 16 * 4) (by omega)
    intro c hc
    simp only [b64_encode_chars, List.mem_cons, List.not_mem_nil,
      or_false] at hc
    rcases hc with rfl | rfl | rfl | rfl
    · exact ⟨s0.2.1, s0.2.2.1, s0.2.2.2.1, s0.2.2.2.2⟩
    · exact ⟨s1.2.1, s1.2.2.1, s1.2.2.2.1, s1.2.2.2.2⟩
    · exact ⟨s2.2.1, s2.2.2.1, s2.2.2.2.1, s2.2.2.2.2⟩
    · refine ⟨?_, ?_, ?_, ?_⟩ <;> decide
  | b0 :: b1 :: b2 :: rest, h => by
    have hb0 : b0 < 256 := h b0 (by simp)
    have hb1 : b1 < 256 := h b1 (by simp)
    have hb2 : b2 < 256 := h b2 (by simp)
    have hrec := b64_encode_chars_safe rest
      (fun b hb => h b (by simp [hb]))
    have s0 := b64_char_safe (b0 / 4) (by omega)
    have s1 := b64_char_safe (b0 % 4 * 16 + b1 / 16) (by omega)
    have s2 := b64_char_safe (b1 % 16 * 4 + b2 / 64) (by omega)
    have s3 := b64_char_safe (b2 % 64) (by omega)
    intro c hc
    simp only [b64_encode_chars, List.mem_cons] at hc
    rcases hc with rfl | rfl | rfl | rfl | hc
    · exact ⟨s0.2.1, s0.2.2.1, s0.2.2.2.1, s0.2.2.2.2⟩
    · exact ⟨s1.2.1, s1.2.2.1, s1.2.2.2.1, s1.2.2.2.2⟩
    · exact ⟨s2.2.1, s2.2.2.1, s2.2.2.2.1, s2.2.2.2.2⟩
    · exact ⟨s3.2.1, s3.2.2.1, s3.2.2.2.1, s3.2.2.2.2⟩
    · exact hrec c hc

/-- The encoding is at least as long as the input (4 characters per
3 bytes). -/
theorem length_b64_encode_chars :
    ∀ p : List Nat, p.length ≤ (b64_encode_chars p).length
  | [] => by simp [b64_encode_chars]
  | [_] => by simp [b64_encode_chars]
  | [_, _] => by simp [b64_encode_chars]
  | _ :: _ :: _ :: rest => by
    have := length_b64_encode_chars rest
    simp only [b64_encode_chars, List.length_cons]
    omega

/-! ## Email composition (`send_email`, src/main.rs:354-398) -/

/-- Email that invoices should be sent to (src/main.rs:22). -/
def INVOICE_EMAIL : String := "Accounting <accounting@mobilecoin.com>"

/-- Character-wise effect of `str::replace` with the one-character
pattern `'\n'` and replacement `"\r\n"`. -/
def crlf_list : List Char → List Char
  | [] => []
  | c :: rest =>
    if c = '\n' then '\r' :: '\n' :: crlf_list rest
    else c :: crlf_list rest

/-- `.replace('\n', "\r\n")` (src/main.rs:386). -/
def crlf_string (s : String) : String := ⟨crlf_list s.data⟩

/-- The `format!` interpolation of `send_email` (src/main.rs:358-385):
the RFC822 message before CRLF conversion.  The literal pieces follow
the Rust format template (whose leading `\` line-continuation removes
the template's first newline); `display`/`email` are the identity
lookup results and `iso` the ISO date stamp. -/
def msg_raw (display email iso : String) (pdf : List Nat) : String :=
  "MIME-Version: 1.0\nFrom: " ++ display ++ " <" ++ email ++ ">\nTo: "
    ++ INVOICE_EMAIL ++ "\nSubject: Invoice - " ++ display ++ " - " ++ iso
    ++ "\nContent-Type: multipart/mixed; boundary=invoice_pdf\n\n--invoice_pdf\nContent-Type: text/plain; charset=\"UTF-8\"\n\nHere is my invoice for the previous 2 weeks, thank you.\n\n--invoice_pdf\nContent-Type: application/pdf; name=\"Invoice-"
    ++ display ++ "-" ++ iso
    ++ ".pdf\"\nContent-Disposition: attachment; filename=\"Invoice-"
    ++ display ++ "-" ++ iso
    ++ ".pdf\"\nContent-Transfer-Encoding: base64\n\n"
    ++ base64_encode pdf ++ "\n\n--invoice_pdf--\n    "

/-- The outbound email POST: raw body and the explicit
`Content-Length` header value. -/
structure EmailRequest where
  body : String
  content_length : Nat
deriving Repr

/-- `send_email` (src/main.rs:354-397): composes the message,
CRLF-converts it, and posts it with `CONTENT_LENGTH` set to
`msg.len()` — the byte length of the converted message string
(src/main.rs:387-392). -/
def send_email (display email iso : String) (pdf : List Nat) : EmailRequest :=
  let msg := crlf_string (msg_raw display email iso pdf)
  { body := msg, content_length := msg.utf8ByteSize }

/-- The body field of the composed request, unfolded. -/
theorem send_email_body (display email iso : String) (pdf : List Nat) :
    (send_email display email iso pdf).body =
      crlf_string (msg_raw display email iso pdf) := rfl

/-- The characters of a CRLF-converted string. -/
theorem data_crlf_string (s : String) :
    (crlf_string s).data = crlf_list s.data := rfl

/-- A string has at least as many UTF-8 bytes as characters. -/
theorem length_le_utf8ByteSize :
    ∀ (l : List Char), l.length ≤ (String.mk l).utf8ByteSize
  | [] => Nat.le_refl 0
  | c :: cs => by
    have ih := length_le_utf8ByteSize cs
    have he : (String.mk (c :: cs)).utf8ByteSize =
        (String.mk cs).utf8ByteSize + c.utf8Size := rfl
    have hc := Char.utf8Size_pos c
    simp only [List.length_cons, he]
    omega

/-- CRLF conversion never shortens a string. -/
theorem length_le_crlf_list : ∀ (l : List Char), l.length ≤ (crlf_list l).length
  | [] => Nat.le_refl 0
  | c :: rest => by
    have ih := length_le_crlf_list rest
    by_cases h : c = '\n' <;> simp [crlf_list, h] <;> omega

/-- CRLF conversion distributes over concatenation. -/
theorem crlf_list_append :
    ∀ (a b : List Char), crlf_list (a ++ b) = crlf_list a ++ crlf_list b
  | [], _ => rfl
  | c :: a, b => by
    by_cases h : c = '\n' <;> simp [crlf_list, h, crlf_list_append a b]

/-- CRLF conversion fixes newline-free strings. -/
theorem crlf_list_of_no_newline : ∀ (l : List Char), '\n' ∉ l → crlf_list l = l
  | [], _ => rfl
  | c :: rest, h => by
    have hc : c ≠ '\n' := fun hc => h (by simp [hc])
    have hr : '\n' ∉ rest := fun hm => h (List.mem_cons_of_mem c hm)
    simp [crlf_list, hc, crlf_list_of_no_newline rest hr]

/-- Checks that every carriage return is immediately followed by a
line feed and every line feed immediately preceded by a carriage
return: the CRLF-throughout property of the wire format. -/
def crlf_ok : List Char → Bool
  | [] => true
  | [c] => if c = '\r' then false else if c = '\n' then false else true
  | c :: c2 :: rest =>
    if c = '\r' then (if c2 = '\n' then crlf_ok rest else false)
    else if c = '\n' then false
    else crlf_ok (c2 :: rest)

/-- CRLF-converting a carriage-return-free string yields a string
whose line terminators are all CRLF. -/
theorem crlf_ok_crlf_list :
    ∀ (l : List Char), '\r' ∉ l → crlf_ok (crlf_list l) = true
  | [], _ => rfl
  | c :: rest, h => by
    have hcr : c ≠ '\r' := fun hc => h (by simp [hc])
    have hr : '\r' ∉ rest := fun hm => h (List.mem_cons_of_mem c hm)
    have ih := crlf_ok_crlf_list rest hr
    by_cases hn : c = '\n'
    · subst hn
      rcases hL : crlf_list rest with _ | ⟨c2, r2⟩ <;>
        · rw [hL] at ih
          simp [crlf_list, crlf_ok, hL, ih]
    · rcases hL : crlf_list rest with _ | ⟨c2, r2⟩ <;>
        · rw [hL] at ih
          simp [crlf_list, crlf_ok, hL, hn, hcr, ih]

/-! ## Parsing the multipart message back (C7)

The parser is a verification artifact (the source never parses its
own message): it splits the composed message into CRLF-terminated
lines, splits the line list on the MIME boundary line, extracts the
base64 payload between the blank lines of the attachment part, and
decodes it. -/

/-- The boundary line separating the MIME parts. -/
def boundary_line : List Char := ("--invoice_pdf").data

/-- A line must end in a carriage return (CRLF wire format); strip
it. -/
def strip_cr (l : List Char) : Option (List Char) :=
  match l.getLast? with
  | some c => if c = '\r' then some l.dropLast else none
  | none => none

/-- Strip the carriage return off every line; the final element (the
text after the last line feed, the epilogue) is dropped. -/
def strip_lines : List (List Char) → Option (List (List Char))
  | [] => some []
  | [_] => some []
  | l :: l2 :: ls =>
    match strip_cr l, strip_lines (l2 :: ls) with
    | some u, some us => some (u :: us)
    | _, _ => none

/-- Split the composed message on the boundary and base64-decode the
attachment part. -/
def parse_multipart (msg : String) : Option (List Nat) :=
  let rawLines := split_on_sep '\n' msg.data
  match strip_lines rawLines with
  | none => none
  | some lines =>
    match (split_on_sep boundary_line lines)[2]? with
    | none => none
    | some grp =>
      match (split_on_sep ([] : List Char) grp)[1]? with
      | none => none
      | some att => b64_decode_chars att.flatten

/-- The line decomposition of `msg_raw`'s value: `msg_raw` equals
these twenty lines joined with a line feed. -/
def msg_lines (display email iso : String) (pdf : List Nat) :
    List (List Char) :=
  [("MIME-Version: 1.0").data,
   ("From: ").data ++ display.data ++ (" <").data ++ email.data ++ (">").data,
   ("To: ").data ++ INVOICE_EMAIL.data,
   ("Subject: Invoice - ").data ++ display.data ++ (" - ").data ++ iso.data,
   ("Content-Type: multipart/mixed; boundary=invoice_pdf").data,
   [],
   boundary_line,
   ("Content-Type: text/plain; charset=\"UTF-8\"").data,
   [],
   ("Here is my invoice for the previous 2 weeks, thank you.").data,
   [],
   boundary_line,
   ("Content-Type: application/pdf; name=\"Invoice-").data ++ display.data
     ++ ("-").data ++ iso.data ++ (".pdf\"").data,
   ("Content-Disposition: attachment; filename=\"Invoice-").data
     ++ display.data ++ ("-").data ++ iso.data ++ (".pdf\"").data,
   ("Content-Transfer-Encoding: base64").data,
   [],
   b64_encode_chars pdf,
   [],
   ("--invoice_pdf--").data,
   ("    ").data]

/-- Join lines with a line feed (no trailing terminator). -/
def join_lines : List (List Char) → List Char
  | [] => []
  | [l] => l
  | l :: l2 :: ls => l ++ '\n' :: join_lines (l2 :: ls)

/-- After CRLF conversion, every line but the last ends in a carriage
return. -/
def term_lines : List (List Char) → List (List Char)
  | [] => []
  | [l] => [l]
  | l :: l2 :: ls => (l ++ ['\r']) :: term_lines (l2 :: ls)

/-- Splitting a separator-free list yields the single group. -/
theorem split_of_not_mem {α : Type} [DecidableEq α] (sep : α) :
    ∀ (l : List α), sep ∉ l → split_on_sep sep l = [l]
  | [], _ => rfl
  | x :: xs, h => by
    have hx : x ≠ sep := fun hh => h (by simp [hh])
    have hxs : sep ∉ xs := fun hm => h (List.mem_cons_of_mem x hm)
    simp [split_on_sep, hx, split_of_not_mem sep xs hxs]

/-- Splitting at the first separator occurrence peels off the leading
group. -/
theorem split_append {α : Type} [DecidableEq α] (sep : α) :
    ∀ (a b : List α), sep ∉ a →
      split_on_sep sep (a ++ sep :: b) = a :: split_on_sep sep b
  | [], b, _ => by simp [split_on_sep]
  | x :: a, b, h => by
    have hx : x ≠ sep := fun hh => h (by simp [hh])
    have ha : sep ∉ a := fun hm => h (List.mem_cons_of_mem x hm)
    have ih := split_append sep a b ha
    simp only [List.cons_append, split_on_sep, if_neg hx, List.append_eq, ih]

/-- A character other than the line feed avoids the joined lines iff
it avoids every line. -/
theorem not_mem_join_lines (c : Char) (hc : c ≠ '\n') :
    ∀ (lines : List (List Char)), (∀ l ∈ lines, c ∉ l) →
      c ∉ join_lines lines
  | [], _ => by simp [join_lines]
  | [l], h => by simpa [join_lines] using h l (by simp)
  | l :: l2 :: ls, h => by
    have h1 : c ∉ l := h l (by simp)
    have ih := not_mem_join_lines c hc (l2 :: ls)
      (fun x hx => h x (by simp [hx]))
    simp only [join_lines, List.mem_append, List.mem_cons]
    rintro (hin | rfl | hin)
    · exact h1 hin
    · exact hc rfl
    · exact ih hin

/-- Splitting the CRLF conversion of joined line-feed-free lines on
the line feed terminates every line but the last with a carriage
return. -/
theorem split_crlf_join_lines :
    ∀ (lines : List (List Char)), lines ≠ [] →
      (∀ l ∈ lines, '\n' ∉ l) →
      split_on_sep '\n' (crlf_list (join_lines lines)) = term_lines lines
  | [], h, _ => absurd rfl h
  | [l], _, hl => by
    have h1 : '\n' ∉ l := hl l (by simp)
    rw [join_lines, crlf_list_of_no_newline l h1, split_of_not_mem _ _ h1]
    rfl
  | l :: l2 :: ls, _, hl => by
    have h1 : '\n' ∉ l := hl l (by simp)
    have ih := split_crlf_join_lines (l2 :: ls) (by simp)
      (fun x hx => hl x (by simp [hx]))
    have hnot : '\n' ∉ l ++ ['\r'] := by
      simp only [List.mem_append, List.mem_singleton]
      rintro (hin | hh)
      · exact h1 hin
      · exact absurd hh (by decide)
    calc split_on_sep '\n' (crlf_list (join_lines (l :: l2 :: ls)))
        = split_on_sep '\n'
            ((l ++ ['\r']) ++ '\n' :: crlf_list (join_lines (l2 :: ls))) := by
          rw [join_lines, crlf_list_append, crlf_list_of_no_newline l h1]
          simp [crlf_list]
      _ = (l ++ ['\r']) :: split_on_sep '\n'
            (crlf_list (join_lines (l2 :: ls))) :=
          split_append '\n' (l ++ ['\r']) _ hnot
      _ = (l ++ ['\r']) :: term_lines (l2 :: ls) := by rw [ih]
      _ = term_lines (l :: l2 :: ls) := rfl

/-- Stripping the carriage return a concatenation appended. -/
theorem strip_cr_concat (l : List Char) : strip_cr (l ++ ['\r']) = some l := by
  simp [strip_cr, List.getLast?_concat, List.dropLast_concat]

/-- Stripping the terminated lines recovers all lines but the last. -/
theorem strip_lines_term_lines :
    ∀ (lines : List (List Char)),
      strip_lines (term_lines lines) = some lines.dropLast
  | [] => rfl
  | [_] => rfl
  | l :: l2 :: ls => by
    have ih := strip_lines_term_lines (l2 :: ls)
    rcases hls : term_lines (l2 :: ls) with _ | ⟨t, ts⟩
    · cases ls <;> simp [term_lines] at hls
    · rw [hls] at ih
      have hstep : term_lines (l :: l2 :: ls) =
          (l ++ ['\r']) :: t :: ts := by rw [term_lines, hls]
      rw [hstep]
      have hdrop : (l :: l2 :: ls).dropLast = l :: (l2 :: ls).dropLast := rfl
      simp [strip_lines, strip_cr_concat, ih, hdrop]

/-- The encoder emits the empty string only on empty input. -/
theorem b64_encode_chars_eq_nil :
    ∀ (p : List Nat), b64_encode_chars p = [] → p = []
  | [], _ => rfl
  | [_], h => by simp [b64_encode_chars] at h
  | [_, _], h => by simp [b64_encode_chars] at h
  | _ :: _ :: _ :: _, h => by simp [b64_encode_chars] at h

/-- The composed message is exactly the twenty lines joined with
line feeds. -/
theorem msg_raw_data_eq (display email iso : String) (pdf : List Nat) :
    (msg_raw display email iso pdf).data =
      join_lines (msg_lines display email iso pdf) := by
  simp [msg_raw, msg_lines, join_lines, boundary_line, INVOICE_EMAIL,
    base64_encode, String.data_append, List.append_assoc]

/-- The boundary line starts with a dash. -/
theorem boundary_ne_of_head (c : Char) (hc : c ≠ '-') (t : List Char) :
    boundary_line ≠ c :: t := by
  intro h
  have hh := congrArg List.head? h
  simp only [boundary_line] at hh
  simp only [List.head?] at hh
  exact hc (by injection hh with hh2; exact hh2.symm)

/-- The empty line is no nonempty line. -/
theorem nil_ne_cons_line (c : Char) (t : List Char) :
    ([] : List Char) ≠ c :: t := by simp

/-- Under the cleanliness hypotheses on the interpolated strings,
every line of the composed message is free of line feeds and carriage
returns. -/
theorem msg_lines_clean (display email iso : String) (pdf : List Nat)
    (hd : '\r' ∉ display.data ∧ '\n' ∉ display.data)
    (he : '\r' ∉ email.data ∧ '\n' ∉ email.data)
    (hi : '\r' ∉ iso.data ∧ '\n' ∉ iso.data)
    (hp : ∀ b ∈ pdf, b < 256) :
    ∀ l ∈ msg_lines display email iso pdf, '\n' ∉ l ∧ '\r' ∉ l := by
  have hb64n : '\n' ∉ b64_encode_chars pdf :=
    fun hm => (b64_encode_chars_safe pdf hp _ hm).2.2.1 rfl
  have hb64r : '\r' ∉ b64_encode_chars pdf :=
    fun hm => (b64_encode_chars_safe pdf hp _ hm).2.1 rfl
  intro l hl
  simp only [msg_lines, List.mem_cons, List.not_mem_nil, or_false] at hl
  rcases hl with rfl|rfl|rfl|rfl|rfl|rfl|rfl|rfl|rfl|rfl|rfl|rfl|rfl|rfl|rfl|rfl|rfl|rfl|rfl|rfl <;>
    refine ⟨?_, ?_⟩ <;>
      first
        | decide
        | exact hb64n
        | exact hb64r
        | simp [List.mem_append, boundary_line, INVOICE_EMAIL,
            hd.1, hd.2, he.1, he.2, hi.1, hi.2]

/-- The header group of the composed message: the lines before the
first boundary line. -/
def hdr_group (display email iso : String) : List (List Char) :=
  [("MIME-Version: 1.0").data,
   ("From: ").data ++ display.data ++ (" <").data ++ email.data ++ (">").data,
   ("To: ").data ++ INVOICE_EMAIL.data,
   ("Subject: Invoice - ").data ++ display.data ++ (" - ").data ++ iso.data,
   ("Content-Type: multipart/mixed; boundary=invoice_pdf").data,
   []]

/-- The plain-text part of the composed message. -/
def text_group : List (List Char) :=
  [("Content-Type: text/plain; charset=\"UTF-8\"").data, [],
   ("Here is my invoice for the previous 2 weeks, thank you.").data, []]

/-- The attachment part of the composed message: headers, a blank
line, the base64 payload, a blank line, and the closing boundary
line. -/
def att_group (display iso : String) (pdf : List Nat) : List (List Char) :=
  [("Content-Type: application/pdf; name=\"Invoice-").data ++ display.data
     ++ ("-").data ++ iso.data ++ (".pdf\"").data,
   ("Content-Disposition: attachment; filename=\"Invoice-").data
     ++ display.data ++ ("-").data ++ iso.data ++ (".pdf\"").data,
   ("Content-Transfer-Encoding: base64").data,
   [],
   b64_encode_chars pdf,
   [],
   ("--invoice_pdf--").data]

/-- C7: composing the multipart email message from raw bytes and then
parsing it back — splitting on the boundary and base64-decoding the
attachment part — recovers exactly the raw bytes, and every line
terminator of the composed message is CRLF.  The interpolated
identity and date strings are assumed free of line terminators. -/
theorem c7_multipart_roundtrip (display email iso : String) (pdf : List Nat)
    (hd : '\r' ∉ display.data ∧ '\n' ∉ display.data)
    (he : '\r' ∉ email.data ∧ '\n' ∉ email.data)
    (hi : '\r' ∉ iso.data ∧ '\n' ∉ iso.data)
    (hp : ∀ b ∈ pdf, b < 256) :
    parse_multipart (send_email display email iso pdf).body = some pdf ∧
    crlf_ok (send_email display email iso pdf).body.data = true := by
  have hclean := msg_lines_clean display email iso pdf hd he hi hp
  have hnl : ∀ l ∈ msg_lines display email iso pdf, '\n' ∉ l :=
    fun l hl => (hclean l hl).1
  have hcrl : ∀ l ∈ msg_lines display email iso pdf, '\r' ∉ l :=
    fun l hl => (hclean l hl).2
  have hdata : (send_email display email iso pdf).body.data =
      crlf_list (join_lines (msg_lines display email iso pdf)) := by
    rw [send_email_body, data_crlf_string, msg_raw_data_eq]
  have hcrlf_ok : crlf_ok (send_email display email iso pdf).body.data
      = true := by
    rw [hdata]
    exact crlf_ok_crlf_list _ (not_mem_join_lines '\r' (by decide) _ hcrl)
  refine ⟨?_, hcrlf_ok⟩
  have hsplit : split_on_sep '\n' (send_email display email iso pdf).body.data
      = term_lines (msg_lines display email iso pdf) := by
    rw [hdata]
    exact split_crlf_join_lines _ (by simp [msg_lines]) hnl
  have hdrop : (msg_lines display email iso pdf).dropLast =
      hdr_group display email iso ++ boundary_line ::
        (text_group ++ boundary_line :: att_group display iso pdf) := rfl
  have hnog0 : boundary_line ∉ hdr_group display email iso := by
    simp only [hdr_group, List.mem_cons, List.not_mem_nil, or_false]
    rintro (h | h | h | h | h | h)
    · exact absurd h (by decide)
    · exact boundary_ne_of_head 'F' (by decide) _ h
    · exact absurd h (by decide)
    · exact boundary_ne_of_head 'S' (by decide) _ h
    · exact absurd h (by decide)
    · exact absurd h (by decide)
  have hnog1 : boundary_line ∉ text_group := by decide
  have hnog2 : boundary_line ∉ att_group display iso pdf := by
    simp only [att_group, List.mem_cons, List.not_mem_nil, or_false]
    rintro (h | h | h | h | h | h | h)
    · exact boundary_ne_of_head 'C' (by decide) _ h
    · exact boundary_ne_of_head 'C' (by decide) _ h
    · exact absurd h (by decide)
    · exact absurd h (by decide)
    · rcases hb : b64_encode_chars pdf with _ | ⟨c0, t⟩
      · rw [hb] at h; exact absurd h (by decide)
      · rw [hb] at h
        have hc0 : c0 ≠ '-' :=
          (b64_encode_chars_safe pdf hp c0 (by rw [hb]; simp)).1
        exact boundary_ne_of_head c0 hc0 t h
    · exact absurd h (by decide)
    · exact absurd h (by decide)
  have hgroups : (split_on_sep boundary_line
        ((msg_lines display email iso pdf).dropLast))[2]? =
      some (att_group display iso pdf) := by
    rw [hdrop, split_append _ _ _ hnog0, split_append _ _ _ hnog1,
      split_of_not_mem _ _ hnog2]
    rfl
  have hnoeh : ([] : List Char) ∉
      [("Content-Type: application/pdf; name=\"Invoice-").data ++ display.data
         ++ ("-").data ++ iso.data ++ (".pdf\"").data,
       ("Content-Disposition: attachment; filename=\"Invoice-").data
         ++ display.data ++ ("-").data ++ iso.data ++ (".pdf\"").data,
       ("Content-Transfer-Encoding: base64").data] := by
    simp only [List.mem_cons, List.not_mem_nil, or_false]
    rintro (h | h | h)
    · exact nil_ne_cons_line 'C' _ h
    · exact nil_ne_cons_line 'C' _ h
    · exact absurd h (by decide)
  have hsplit2 : split_on_sep ([] : List Char) (att_group display iso pdf) =
      [("Content-Type: application/pdf; name=\"Invoice-").data ++ display.data
         ++ ("-").data ++ iso.data ++ (".pdf\"").data,
       ("Content-Disposition: attachment; filename=\"Invoice-").data
         ++ display.data ++ ("-").data ++ iso.data ++ (".pdf\"").data,
       ("Content-Transfer-Encoding: base64").data] ::
        split_on_sep ([] : List Char)
          [b64_encode_chars pdf, [], ("--invoice_pdf--").data] :=
    split_append _ _ _ hnoeh
  rcases hb : b64_encode_chars pdf with _ | ⟨c0, t⟩
  · -- empty payload: the pdf byte sequence itself is empty
    have hpnil : pdf = [] := b64_encode_chars_eq_nil pdf hb
    have hatt : (split_on_sep ([] : List Char)
          (att_group display iso pdf))[1]? = some ([] : List (List Char)) := by
      rw [hsplit2, hb]
      have hc : split_on_sep ([] : List Char)
          [[], [], ("--invoice_pdf--").data] =
          [[], [], [("--invoice_pdf--").data]] := by decide
      rw [hc]
      rfl
    simp only [parse_multipart, hsplit,
      strip_lines_term_lines (msg_lines display email iso pdf), hgroups, hatt]
    subst hpnil
    rfl
  · -- nonempty payload: it is the single line between the blank lines
    have hatt : (split_on_sep ([] : List Char)
          (att_group display iso pdf))[1]? = some [c0 :: t] := by
      rw [hsplit2, hb]
      have hsingle : split_on_sep ([] : List Char)
          [c0 :: t, ([] : List Char), ("--invoice_pdf--").data] =
          [c0 :: t] :: split_on_sep ([] : List Char)
            [("--invoice_pdf--").data] :=
        split_append ([] : List Char) [c0 :: t] [("--invoice_pdf--").data]
          (by simp only [List.mem_cons, List.not_mem_nil, or_false]
              rintro h
              exact nil_ne_cons_line c0 t h)
      rw [hsingle,
        split_of_not_mem ([] : List Char) [("--invoice_pdf--").data]
          (by decide)]
      rfl
    simp only [parse_multipart, hsplit,
      strip_lines_term_lines (msg_lines display email iso pdf), hgroups, hatt]
    have hflat : ([c0 :: t] : List (List Char)).flatten = c0 :: t := by simp
    rw [hflat, ← hb, b64_decode_encode pdf hp]

/-- C7 witness: the round-trip theorem applied to a concrete
identity, date and five-byte payload. -/
theorem c7_witness :
    (('\r' ∉ ("Jane Doe" : String).data ∧ '\n' ∉ ("Jane Doe" : String).data) ∧
     ('\r' ∉ ("jane@example.com" : String).data ∧
      '\n' ∉ ("jane@example.com" : String).data) ∧
     ('\r' ∉ ("2026-01-15" : String).data ∧
      '\n' ∉ ("2026-01-15" : String).data) ∧
     (∀ b ∈ [37, 80, 68, 70, 45], b < 256)) ∧
    (parse_multipart (send_email ("Jane Doe") ("jane@example.com")
        ("2026-01-15") [37, 80, 68, 70, 45]).body =
      some [37, 80, 68, 70, 45] ∧
     crlf_ok (send_email ("Jane Doe") ("jane@example.com") ("2026-01-15")
        [37, 80, 68, 70, 45]).body.data = true) :=
  ⟨by decide,
   c7_multipart_roundtrip ("Jane Doe") ("jane@example.com") ("2026-01-15")
     [37, 80, 68, 70, 45] (by decide) (by decide) (by decide) (by decide)⟩

/-- C6: the `Content-Length` value sent with the email POST equals
the byte length of the final, already-CRLF-converted message body —
and is in particular strictly larger than the byte length of the
embedded PDF alone. -/
theorem c6_content_length_matches_message (display email iso : String)
    (pdf : List Nat) :
    (send_email display email iso pdf).content_length =
      (send_email display email iso pdf).body.utf8ByteSize ∧
    pdf.length < (send_email display email iso pdf).content_length := by
  constructor
  · simp only [send_email]
  have hb : pdf.length ≤ (b64_encode_chars pdf).length :=
    length_b64_encode_chars pdf
  have hraw : pdf.length + 1 ≤ (msg_raw display email iso pdf).data.length := by
    simp only [msg_raw, String.data_append, List.length_append,
      base64_encode, List.length_cons, List.length_nil]
    omega
  have hcrlf := length_le_crlf_list (msg_raw display email iso pdf).data
  have hutf := length_le_utf8ByteSize
    (crlf_list (msg_raw display email iso pdf).data)
  simp only [send_email]
  unfold crlf_string
  omega

/-- C2 counterexample input: a query that decodes to an empty result
list. -/
def empty_list_response : ListResponse := ⟨[]⟩

/-- A single-match result list, as a query returns on the happy
path. -/
def one_file_response : ListResponse :=
  ⟨[{ id := "T1"
      name := "Invoice Template"
      mime_type := "application/vnd.google-apps.spreadsheet"
      parents := ["F0"]
      web_view_link := "https://docs.google.com/T1" }]⟩

/-- C4/C5 witness credential. -/
def witness_access : Access :=
  { access_token := "at0"
    expires_in := 3599
    refresh_token := "rt0"
    scope := "https://www.googleapis.com/auth/drive https://www.googleapis.com/auth/gmail.send"
    token_type := "Bearer" }

/-- C1: with a lookup that persistently fails (whatever the error —
`notFound` included) and a refresh that always succeeds, `main`'s
retry loop never terminates, for every fuel bound: the code retries
indefinitely instead of failing with `NotFound` after one
refresh-and-retry cycle. -/
theorem c1_lookup_loop_retries_forever (e : RunError) :
    ∀ (fuel : Nat) (access : Access),
      main_lookup_loop (fun _ => Except.error e) (fun a => Except.ok a)
        fuel access = none := by
  intro fuel
  induction fuel with
  | zero => intro access; rfl
  | succ n ih => intro access; simpa [main_lookup_loop] using ih access

/-- C2 counterexample: with an empty result list on either side —
template alone, folder alone, or both — `get_files` panics
(out-of-bounds `swap_remove(0)`); in particular it does not return
the `NotFound` error the claim requires. -/
theorem c2_empty_lists_panic :
    (get_files empty_list_response empty_list_response = Outcome.panicked ∧
     get_files empty_list_response empty_list_response ≠
       Outcome.err RunError.notFound) ∧
    get_files empty_list_response one_file_response = Outcome.panicked ∧
    get_files one_file_response empty_list_response = Outcome.panicked := by
  refine ⟨⟨rfl, ?_⟩, rfl, rfl⟩
  intro h
  simp [get_files, empty_list_response] at h

/-- C2 (amended): whenever either result list is empty, `get_files`
panics; it does not return a `NotFound` error and it does not return
a success value — the failure is an abnormal abort, not a returned
error. -/
theorem c2_empty_lists_never_succeed (template folder : ListResponse)
    (h : template.files = [] ∨ folder.files = []) :
    get_files template folder = Outcome.panicked ∧
    get_files template folder ≠ Outcome.err RunError.notFound ∧
    ∀ r, get_files template folder ≠ Outcome.ok r := by
  have hpan : get_files template folder = Outcome.panicked := by
    rcases h with h | h <;>
      · unfold get_files
        rcases ht : template.files with _ | ⟨t, ts⟩ <;>
          rcases hf : folder.files with _ | ⟨f, fs⟩ <;>
            simp_all
  refine ⟨hpan, ?_, ?_⟩
  · rw [hpan]
    intro hh
    exact Outcome.noConfusion hh
  · intro r
    rw [hpan]
    intro hh
    exact Outcome.noConfusion hh

/-- C2 witness: the amended theorem applied at a concrete input whose
template result list is empty while the folder result list has one
match. -/
theorem c2_witness :
    (empty_list_response.files = [] ∨ one_file_response.files = []) ∧
    (get_files empty_list_response one_file_response = Outcome.panicked ∧
     get_files empty_list_response one_file_response ≠
       Outcome.err RunError.notFound ∧
     ∀ r, get_files empty_list_response one_file_response ≠ Outcome.ok r) :=
  ⟨Or.inl rfl,
   c2_empty_lists_never_succeed empty_list_response one_file_response
     (Or.inl rfl)⟩

/-- C3 counterexample: a non-2xx export response (status 500, body
`<html>`) is returned as a *successful* byte payload; `file_export`
does not fail with `RemoteError`. -/
theorem c3_non_2xx_returned_as_success :
    file_export (Except.ok ⟨500, [60, 104, 116, 109, 108, 62]⟩) =
      Except.ok [60, 104, 116, 109, 108, 62] ∧
    file_export (Except.ok ⟨500, [60, 104, 116, 109, 108, 62]⟩) ≠
      Except.error RunError.remoteError := by
  constructor
  · rfl
  · intro h
    simp [file_export] at h

/-- C3 (amended): for every response the transport delivers —
whatever its status code — `file_export` returns the body bytes as a
success; the status is never inspected. -/
theorem c3_export_ignores_status (res : HttpResponse) :
    file_export (Except.ok res) = Except.ok res.body := rfl

/-- C4: a refresh whose response body lacks the `refresh_token` field
produces — and persists — a credential whose `refresh_token` equals
the previously stored one; the stored refresh token is never replaced
by the empty value serde defaulted in. -/
theorem c4_refresh_preserves_refresh_token (c : Access) (r : TokenResponse)
    (store : CredStore) (_h : r.refresh_token = none) :
    (refresh_persist c (parse_access r) store).1.refresh_token =
        c.refresh_token ∧
      (refresh_persist c (parse_access r) store).2 =
        some (refresh_persist c (parse_access r) store).1 := by
  constructor <;> rfl

/-- C4 witness: the theorem applied at a concrete credential and a
concrete refresh response that omits `refresh_token`. -/
theorem c4_witness :
    (TokenResponse.refresh_token ⟨"at1", 3599, none, "s", "Bearer"⟩ = none) ∧
    (refresh_persist witness_access
        (parse_access ⟨"at1", 3599, none, "s", "Bearer"⟩) none).1.refresh_token =
      witness_access.refresh_token :=
  ⟨rfl,
   (c4_refresh_preserves_refresh_token witness_access
      ⟨"at1", 3599, none, "s", "Bearer"⟩ none rfl).1⟩

/-- C5: when the token response's scope string splits into a word
count different from the required scope count, the bootstrap
validation fails with `ScopeMismatch` and the credential store is
left exactly as it was (no `save_access` call happens). -/
theorem c5_scope_mismatch_leaves_store (text : Access) (store : CredStore)
    (h : scope_count text.scope ≠ DRIVE_SCOPES.length) :
    first_access_validate text store =
      (Except.error RunError.scopeMismatch, store) := by
  simp [first_access_validate, h]

/-- C5 witness: a one-word scope against the two required scopes. -/
theorem c5_witness :
    scope_count (Access.scope { witness_access with
        scope := "https://www.googleapis.com/auth/drive" }) ≠
      DRIVE_SCOPES.length ∧
    first_access_validate
        { witness_access with scope := "https://www.googleapis.com/auth/drive" }
        (some witness_access) =
      (Except.error RunError.scopeMismatch, some witness_access) :=
  ⟨by decide,
   c5_scope_mismatch_leaves_store _ _ (by decide)⟩

/-- C10: whenever the lookup retry loop of `main` terminates, it
terminates either with a pair that `get_files` successfully returned,
or with an error that `refresh` itself returned (propagated
immediately by `?`); a lookup failure is never itself the loop's
result. -/
theorem c10_loop_exits_only_via_lookup_success_or_refresh_error
    (get_files_step : Access → Except RunError (FileResource × FileResource))
    (refresh_step : Access → Except RunError Access) :
    ∀ (fuel : Nat) (access : Access)
      (r : Except RunError (FileResource × FileResource)),
      main_lookup_loop get_files_step refresh_step fuel access = some r →
      (∃ f, r = Except.ok f ∧ ∃ a, get_files_step a = Except.ok f) ∨
      (∃ e, r = Except.error e ∧ ∃ a, refresh_step a = Except.error e) := by
  intro fuel
  induction fuel with
  | zero => intro access r h; exact absurd h (by simp [main_lookup_loop])
  | succ n ih =>
    intro access r h
    unfold main_lookup_loop at h
    rcases hg : get_files_step access with eg | fg
    · rw [hg] at h
      rcases hr : refresh_step access with er | ar
      · rw [hr] at h
        refine Or.inr ⟨er, ?_, access, hr⟩
        exact (Option.some.inj h).symm
      · rw [hr] at h
        exact ih ar r h
    · rw [hg] at h
      exact Or.inl ⟨fg, (Option.some.inj h).symm, access, hg⟩

/-! ## Local persistence of the rendered artifact (C8)

The file system is modelled as the list of directories that exist; a
path is a list of segments relative to the working directory. -/

/-- Every ancestor of a path, the path itself included: the set of
directories `fs::create_dir_all` guarantees to exist afterwards. -/
def dir_prefixes : List String → List (List String)
  | [] => [[]]
  | s :: rest => [] :: (dir_prefixes rest).map (fun p => s :: p)

/-- Whether directory `d` exists (the working-directory root `[]`
always does). -/
def dir_exists (d : List String) (dirs : List (List String)) : Bool :=
  d.isEmpty || dirs.contains d

/-- `fs::create_dir_all(path)`: creates the directory and all its
ancestors. -/
def create_dir_all (path : List String) (dirs : List (List String)) :
    List (List String) :=
  dir_prefixes path ++ dirs

/-- `fs::File::create(path)` as used by `save_access` and
`ready_invoice`: succeeds only when the parent directory of `path`
exists; it creates no directories itself. -/
def file_create (path : List String) (dirs : List (List String)) :
    Except RunError Unit :=
  if dir_exists path.dropLast dirs then Except.ok ()
  else Except.error RunError.ioError

/-- The fixed output directory `./scratch/invoices`
(src/main.rs:406). -/
def output_base : List String := ["scratch", "invoices"]

/-- The directory-creation step of `main` (src/main.rs:407): the
source runs `fs::create_dir_all("./scratch")` — note: `./scratch`,
not the output directory `./scratch/invoices`. -/
def main_fs_setup (dirs : List (List String)) : List (List String) :=
  create_dir_all ["scratch"] dirs

/-- The artifact path `output_base.join(name).with_extension("pdf")`
used by `ready_invoice` (src/main.rs:344); `file_name` stands for the
copied document's name with the `pdf` extension applied. -/
def invoice_output_path (file_name : String) : List String :=
  output_base ++ [file_name]

/-- C8: starting from a file system with no pre-existing directories,
`main`'s setup step leaves the fixed output directory
`./scratch/invoices` absent (only `./scratch` is created), so the
local write of the rendered bytes fails instead of succeeding as the
claim requires. -/
theorem c8_output_dir_never_created (file_name : String) :
    dir_exists output_base (main_fs_setup []) = false ∧
    file_create (invoice_output_path file_name) (main_fs_setup []) =
      Except.error RunError.ioError := by
  have h : dir_exists output_base (main_fs_setup []) = false := by decide
  refine ⟨h, ?_⟩
  unfold file_create invoice_output_path
  rw [List.dropLast_concat, h]
  simp

/-! ## The confirmation gate before sending the email (C9) -/

/-- `u8::to_ascii_lowercase`, lifted to the character it encodes:
bytes in the ASCII uppercase range are shifted by 32, everything else
is untouched (in UTF-8 those bytes only occur as complete ASCII
characters, so the byte-wise Rust operation acts character-wise). -/
def ascii_lower_char (c : Char) : Char :=
  if 65 ≤ c.toNat ∧ c.toNat ≤ 90 then Char.ofNat (c.toNat + 32) else c

/-- `String::make_ascii_lowercase` (src/main.rs:444), as the resulting
string value. -/
def ascii_lowercase (s : String) : String :=
  ⟨s.data.map ascii_lower_char⟩

/-- `str::trim` (src/main.rs:445): drops leading and trailing
whitespace. -/
def str_trim (s : String) : String :=
  ⟨((s.data.dropWhile Char.isWhitespace).reverse.dropWhile
      Char.isWhitespace).reverse⟩

/-- The confirmation decision of `main` (src/main.rs:444-446): the
input is ASCII-lowercased, trimmed, and compared against `y` and
`yes`. -/
def main_confirm (input : String) : Bool :=
  let s := str_trim (ascii_lowercase input)
  s == "y" || s == "yes"

/-- The send gate at the end of `main` (src/main.rs:449-454): when
the confirmation holds the email send's own result is the run's
result, otherwise the send is skipped and the run ends with
`Ok(())`.  The boolean records whether `send_email` was invoked. -/
def main_send_phase (input : String) (send_result : Except RunError Unit) :
    Bool × Except RunError Unit :=
  if main_confirm input then (true, send_result) else (false, Except.ok ())

/-- A character with a code point of 65 or more is not whitespace. -/
theorem not_ws_of_toNat_bounds {c : Char} (h1 : 65 ≤ c.toNat) :
    c.isWhitespace = false := by
  have hsp : c ≠ ' ' := by rintro rfl; exact absurd h1 (by decide)
  have hta : c ≠ '\t' := by rintro rfl; exact absurd h1 (by decide)
  have hcr : c ≠ '\r' := by rintro rfl; exact absurd h1 (by decide)
  have hnl : c ≠ '\n' := by rintro rfl; exact absurd h1 (by decide)
  simp [Char.isWhitespace, hsp, hta, hcr, hnl]

/-- `Char.ofNat` at a valid code point round-trips through
`Char.toNat`. -/
theorem char_toNat_ofNat_valid (n : Nat) (h : n.isValidChar) :
    (Char.ofNat n).toNat = n := by
  simp only [Char.ofNat]
  rw [dif_pos h]
  rfl

/-- ASCII lowercasing never changes whether a character is
whitespace. -/
theorem isWhitespace_ascii_lower_char (c : Char) :
    (ascii_lower_char c).isWhitespace = c.isWhitespace := by
  unfold ascii_lower_char
  split
  · next hc =>
    obtain ⟨h1, h2⟩ := hc
    have hv : (c.toNat + 32).isValidChar := Or.inl (by omega)
    have ht := char_toNat_ofNat_valid _ hv
    have hb : 65 ≤ (Char.ofNat (c.toNat + 32)).toNat := by omega
    rw [not_ws_of_toNat_bounds hb, not_ws_of_toNat_bounds h1]
  · rfl

/-- ASCII lowercasing and trimming commute. -/
theorem trim_ascii_lowercase_comm (s : String) :
    str_trim (ascii_lowercase s) = ascii_lowercase (str_trim s) := by
  have hws : (Char.isWhitespace ∘ ascii_lower_char) = Char.isWhitespace :=
    funext isWhitespace_ascii_lower_char
  unfold str_trim ascii_lowercase
  congr 1
  rw [List.dropWhile_map, hws, ← List.map_reverse, List.dropWhile_map, hws,
    ← List.map_reverse]

/-- C9: the email is sent exactly when the confirmation input,
trimmed and then compared after ASCII lowercasing, equals `y` or
`yes`; on every other input the send is skipped and the run still
ends successfully with `Ok(())`. -/
theorem c9_confirmation_gate (input : String)
    (send_result : Except RunError Unit) :
    ((main_send_phase input send_result).1 = true ↔
      (ascii_lowercase (str_trim input) = "y" ∨
       ascii_lowercase (str_trim input) = "yes")) ∧
    (¬(ascii_lowercase (str_trim input) = "y" ∨
       ascii_lowercase (str_trim input) = "yes") →
      main_send_phase input send_result = (false, Except.ok ())) := by
  have key : main_confirm input = true ↔
      (ascii_lowercase (str_trim input) = "y" ∨
       ascii_lowercase (str_trim input) = "yes") := by
    unfold main_confirm
    rw [trim_ascii_lowercase_comm]
    simp
  constructor
  · unfold main_send_phase
    by_cases hc : main_confirm input = true
    · rw [if_pos hc]
      simpa using key.mp hc
    · rw [if_neg hc]
      exact iff_of_false (by simp) (fun hcond => hc (key.mpr hcond))
  · intro hcond
    unfold main_send_phase
    rw [if_neg (fun hc => hcond (key.mp hc))]

/-- C9 witness: the input `" No"` does not confirm, and the send is
skipped with a successful result even though the send itself would
have failed. -/
theorem c9_witness :
    ¬(ascii_lowercase (str_trim (" No")) = "y" ∨
      ascii_lowercase (str_trim (" No")) = "yes") ∧
    main_send_phase (" No") (Except.error RunError.remoteError) =
      (false, Except.ok ()) :=
  ⟨by decide,
   (c9_confirmation_gate (" No") (Except.error RunError.remoteError)).2
     (by decide)⟩

/-- C10 witness: lookup always fails with `NotFound`, refresh fails
with `TransportError`: the loop's result is exactly the refresh
error. -/
theorem c10_witness :
    (∃ f, (Except.error RunError.transportError :
            Except RunError (FileResource × FileResource)) = Except.ok f ∧
          ∃ a, (fun (_ : Access) =>
            (Except.error RunError.notFound :
              Except RunError (FileResource × FileResource))) a = Except.ok f) ∨
    (∃ e, (Except.error RunError.transportError :
            Except RunError (FileResource × FileResource)) = Except.error e ∧
          ∃ a, (fun (_ : Access) =>
            (Except.error RunError.transportError :
              Except RunError Access)) a = Except.error e) :=
  c10_loop_exits_only_via_lookup_success_or_refresh_error
    (fun _ => Except.error RunError.notFound)
    (fun _ => Except.error RunError.transportError)
    5 witness_access (Except.error RunError.transportError) rfl

end InvoiceBot
